import Mathlib

/-!
Verification of the Flow CLI contract-deployment core: a shallow embedding of
`pkg/flowkit/project/imports.go` (import resolution) and of the account service
(`Accounts.Create`, `Accounts.AddContract`, `Accounts.RemoveContract`), with
theorems checking the natural-language specification against it.

Machine strings are Lean `String`s; Go byte slices holding source code are
rendered as `String`s; a Flow address (8 bytes) is a `Nat` reduced mod 2^64.
Gateway interactions are modelled by an oracle structure plus an explicit call
trace, so that statements such as "no transaction is submitted" are about the
trace the embedded operation produces.
-/

namespace FlowSpec

/-! ## Go string helpers (slash splitting, joining, first-separator split) -/

/-- Split a character list at every occurrence of `c`, as Go
`strings.Split` does for a one-character separator. -/
def splitOnCharAux (c : Char) : List Char → List Char → List String
  | [], acc => [String.mk acc.reverse]
  | x :: xs, acc =>
    if x = c then String.mk acc.reverse :: splitOnCharAux c xs []
    else splitOnCharAux c xs (x :: acc)

/-- `splitOnChar c s` is Go `strings.Split(s, string(c))`. -/
def splitOnChar (c : Char) (s : String) : List String :=
  splitOnCharAux c s.data []

/-- Join strings with a separator, as Go `strings.Join`. -/
def joinSep (sep : String) : List String → String
  | [] => ""
  | [x] => x
  | x :: y :: xs => x ++ sep ++ joinSep sep (y :: xs)

/-- Split at the first occurrence of `c`: Go `strings.SplitN(s, string(c), 2)`
when the separator occurs, `none` when it does not. -/
def splitFirstAux (c : Char) : List Char → List Char → Option (String × String)
  | [], _ => none
  | x :: xs, acc =>
    if x = c then some (String.mk acc.reverse, String.mk xs)
    else splitFirstAux c xs (x :: acc)

/-- First-separator split of a string. -/
def splitFirst (c : Char) (s : String) : Option (String × String) :=
  splitFirstAux c s.data []

/-! ## Go `path` package: `Clean`, `Dir`, `Join` (purely lexical, slash paths) -/

/-- The element loop of Go `path.Clean`: empty and `.` elements are dropped,
`..` pops the last real element when one is available, is dropped at the root
of a rooted path, and is kept at the front of a relative path; real elements
are pushed. `stack` holds the output elements in reverse. -/
def cleanLoop (rooted : Bool) : List String → List String → List String
  | [], stack => stack.reverse
  | e :: rest, stack =>
    if e = "" ∨ e = "." then cleanLoop rooted rest stack
    else if e = ".." then
      match stack with
      | top :: stack2 =>
        if top = ".." then cleanLoop rooted rest (".." :: top :: stack2)
        else cleanLoop rooted rest stack2
      | [] =>
        if rooted then cleanLoop rooted rest []
        else cleanLoop rooted rest [".."]
    else cleanLoop rooted rest (e :: stack)

/-- Whether the path begins with a slash. -/
def isRooted (s : String) : Bool :=
  match s.data with
  | '/' :: _ => true
  | _ => false

/-- Go `path.Clean`: lexical cleaning of a slash-separated path; the empty
path cleans to `"."`. -/
def pathClean (p : String) : String :=
  if p = "" then "."
  else
    let rooted := isRooted p
    let parts := cleanLoop rooted (splitOnChar '/' p) []
    if rooted then "/" ++ joinSep "/" parts
    else if parts = [] then "." else joinSep "/" parts

/-- Go `path.Dir`: everything up to (and including) the final slash, cleaned;
a path with no slash has directory `"."`. -/
def pathDir (p : String) : String :=
  let parts := splitOnChar '/' p
  if parts.length ≤ 1 then pathClean ""
  else pathClean (joinSep "/" parts.dropLast ++ "/")

/-- Go `path.Join` restricted to two elements: empty elements are skipped and
the joined path is cleaned; joining two empty strings gives the empty string. -/
def pathJoin (a b : String) : String :=
  if a = "" then (if b = "" then "" else pathClean b)
  else pathClean (a ++ "/" ++ b)

/-- `absolutePath` from `pkg/flowkit/project/imports.go`:
`path.Join(path.Dir(basePath), relativePath)`. -/
def absolutePath (basePath relativePath : String) : String :=
  pathJoin (pathDir basePath) relativePath

/-! ## Flow addresses: canonical hex string and hex parsing -/

/-- Value of one hexadecimal digit; characters outside `[0-9a-fA-F]`
contribute 0 (the model only receives well-formed hex alias addresses). -/
def hexVal (c : Char) : Nat :=
  if '0' ≤ c ∧ c ≤ '9' then c.toNat - '0'.toNat
  else if 'a' ≤ c ∧ c ≤ 'f' then c.toNat - 'a'.toNat + 10
  else if 'A' ≤ c ∧ c ≤ 'F' then c.toNat - 'A'.toNat + 10
  else 0

/-- Go `strings.TrimPrefix(h, "0x")` as used by `flow.HexToAddress`. -/
def stripHexMark (s : String) : String :=
  match s.data with
  | '0' :: 'x' :: rest => String.mk rest
  | _ => s

/-- `flow.HexToAddress` of the flow-go-sdk, on the value level: strip a
leading `0x`, read the hex digits, keep the low 8 bytes. -/
def hexToAddress (s : String) : Nat :=
  ((stripHexMark s).data.foldl (fun n c => n * 16 + hexVal c) 0) % 2 ^ 64

/-- The `k` low hex digits of `n`, most significant first. -/
def addrHexChars : Nat → Nat → List Char
  | 0, _ => []
  | k + 1, n => addrHexChars k (n / 16) ++ [Nat.digitChar (n % 16)]

/-- `flow.Address.String()`: the canonical 16-lowercase-hex-digit rendering
of an 8-byte address, without a `0x` mark. -/
def addressString (a : Nat) : String :=
  String.mk (addrHexChars 16 (a % 2 ^ 64))

/-! ## Program model

`pkg/flowkit/project/program.go` is not part of the given sources; the
`Program` type is modelled from the spec: a program wraps one contract's raw
source (shared with the `Script` it was built from), stores its location for
relative-import resolution, exposes the list of import path strings found
in the source, the declared contract name, and the syntactic replacement of
an import-path token by a resolved string.  The source is tokenized into
plain text runs and import-path occurrences, so that the replacement is the
pure string rewrite the spec describes. -/

/-- One piece of contract source: a raw text run, or the quoted path of
one import statement. -/
inductive SourceElem
  | text (s : String)
  | imp (path : String)
deriving DecidableEq

/-- A contract script together with its program view: location, tokenized
source, declared contract name, deployment arguments.  `Program` and
`Script` share the source in the Go code (the program wraps the script and
rewrites it in place), so one structure models both. -/
structure Script where
  location : String
  source : List SourceElem
  contractName : Option String
  args : List String
deriving DecidableEq

/-- Import paths of a source, in source order. -/
def importsOf : List SourceElem → List String
  | [] => []
  | .imp p :: rest => p :: importsOf rest
  | .text _ :: rest => importsOf rest

/-- `Program.Imports()`: the import path strings declared in the program. -/
def Script.Imports (p : Script) : List String :=
  importsOf p.source

/-- `Program.HasImports()`. -/
def Script.HasImports (p : Script) : Bool :=
  !p.Imports.isEmpty

/-- `Program.Location()`. -/
def Script.Location (p : Script) : String :=
  p.location

/-- The flat source text: text runs verbatim, import paths in their quoted
form. -/
def Script.Code (p : Script) : String :=
  p.source.foldl (fun acc e =>
    acc ++ match e with
    | .text s => s
    | .imp q => "\x22" ++ q ++ "\x22") ""

/-- Replace the first import occurrence of path `f` by the literal text `t`. -/
def replaceFirstImp : List SourceElem → String → String → List SourceElem
  | [], _, _ => []
  | .imp p :: rest, f, t =>
    if p = f then .text t :: rest else .imp p :: replaceFirstImp rest f t
  | .text s :: rest, f, t => .text s :: replaceFirstImp rest f t

/-- `Program.ReplaceImport(from, to)`: rewrite the first occurrence of the
quoted import path to `0x` followed by the resolved address string.  The Go
method writes through to the wrapped script's code, so the receiver is
updated in place; the model returns the updated program, which every caller
threads as the current state of that shared source. -/
def Script.ReplaceImport (p : Script) (f t : String) : Script :=
  { p with source := replaceFirstImp p.source f ("0x" ++ t) }

/-! ## `ImportReplacer` from `pkg/flowkit/project/imports.go` -/

/-- A project contract as the import replacer consumes it: its source
location and the target account address it is deployed to. -/
structure Contract where
  location : String
  accountAddress : Nat
deriving DecidableEq

/-- An import replacer: project contracts plus configured aliases
(location, hex address string). -/
structure ImportReplacer where
  contracts : List Contract
  aliases : List (String × String)

/-- Go map insert (overwrite an existing binding, else append). -/
def mapInsert (m : List (String × String)) (k v : String) : List (String × String) :=
  if m.any (fun e => e.1 == k) then m.map (fun e => if e.1 == k then (k, v) else e)
  else m ++ [(k, v)]

/-- Go map lookup. -/
def mapLookup (m : List (String × String)) (k : String) : Option String :=
  (m.find? (fun e => e.1 == k)).map (fun e => e.2)

/-- `ImportReplacer.getContractsLocations`: one entry per contract,
`path.Clean(location) -> AccountAddress.String()`, then one entry per alias,
`path.Clean(source) -> flow.HexToAddress(target).String()`. -/
def ImportReplacer.getContractsLocations (i : ImportReplacer) : List (String × String) :=
  let sourceTarget := i.contracts.foldl
    (fun m c => mapInsert m (pathClean c.location) (addressString c.accountAddress)) []
  i.aliases.foldl
    (fun m st => mapInsert m (pathClean st.1) (addressString (hexToAddress st.2))) sourceTarget

/-- The key `Replace` looks up for one import:
`path.Clean(absolutePath(program.Location(), imp))`. -/
def importKey (loc imp : String) : String :=
  pathClean (absolutePath loc imp)

/-- The loop body of `ImportReplacer.Replace`: walk the precomputed import
list, look each import up, rewrite it in the program, and stop with an error
on the first miss.  The returned program is the state of the (in Go, shared
and mutated) program when the loop stops. -/
def replaceLoop (tbl : List (String × String)) : List String → Script → Script × Option String
  | [], prog => (prog, none)
  | imp :: rest, prog =>
    match mapLookup tbl (importKey prog.location imp) with
    | none => (prog, some ("import " ++ imp ++ " could not be resolved from the configuration"))
    | some target => replaceLoop tbl rest (prog.ReplaceImport imp target)

/-- `ImportReplacer.Replace(program)`: on success the second component is
`none` and the first is the fully resolved program (the Go function returns
it); on failure the second component is the error and the first component is
the program as already mutated when the loop stopped (the Go function
returns `nil`, but the mutations performed so far remain visible through the
shared script). -/
def ImportReplacer.Replace (i : ImportReplacer) (program : Script) : Script × Option String :=
  replaceLoop i.getContractsLocations program.Imports program

/-! ## Accounts service (`services` package)

The gateway is an oracle structure of deterministic responses; every embedded
operation additionally returns the ordered list of gateway calls it made, so
that claims about "no transaction submitted" and "no network call" are
statements about that trace. -/

/-- `flow.AccountKey` as `Create` builds it. -/
structure AccountKey where
  publicKey : Nat
  sigAlgo : Nat
  hashAlgo : Nat
  weight : Int
deriving DecidableEq

/-- `flow.AccountKeyWeightThreshold` (the full-weight threshold, 1000). -/
def accountKeyWeightThreshold : Int := 1000

/-- The transactions the service builds (`flowkit.New...Transaction`). -/
inductive Tx
  | addContract (name : String) (code : String) (args : List String)
  | updateContract (name : String) (code : String)
  | removeContract (name : String)
  | createAccount (keys : List AccountKey) (contracts : List (String × String))
deriving DecidableEq

/-- One gateway round trip, as recorded in the call trace. -/
inductive GwCall
  | getAccount (addr : Nat)
  | getLatestBlock
  | sendTx (tx : Tx)
  | getTxResult (id : Nat)
deriving DecidableEq

/-- An on-chain account as `Gateway.GetAccount` reports it: deployed
contracts (name, code) and the number of account keys. -/
structure FlowAccount where
  contracts : List (String × String)
  keyCount : Nat
deriving DecidableEq

/-- A sealed transaction result: optional execution error and the addresses
of accounts created by the transaction (from its events). -/
structure TxResult where
  resultError : Option String
  createdAddresses : List Nat
deriving DecidableEq

/-- The gateway oracle: deterministic responses to each call. -/
structure Gateway where
  getAccount : Nat → Except String FlowAccount
  getLatestBlock : Except String Unit
  sendSignedTransaction : Tx → Except String Nat
  getTransactionResult : Nat → Except String TxResult

/-- A `flowkit.Account`: configured name, address and signing key index. -/
structure Account where
  name : String
  address : Nat
  keyIndex : Nat
deriving DecidableEq

/-- The state/config collaborator: per-network deployment contracts and
aliases, and source-file reading. -/
structure StateConfig where
  deploymentContractsByNetwork : String → Except String (List Contract)
  aliasesForNetwork : String → List (String × String)
  readFile : String → Except String String

/-- Service errors: the distinguished `errUpdateNoDiff` sentinel, or an
ordinary message error. -/
inductive AErr
  | updateNoDiff
  | msg (s : String)
deriving DecidableEq

/-- Outcome of an embedded Go function: a runtime panic, an error return, or
a normal return. -/
inductive GoResult (α : Type)
  | panic (s : String)
  | error (e : AErr)
  | ok (a : α)
deriving DecidableEq

/-- `Accounts.prepareTransaction`: fetch the latest block, fetch the
proposer account, set the block reference and the proposer key (failing when
the signer's key index is out of range), and sign.  Returns its own gateway
call trace alongside the prepared transaction. -/
def prepareTransaction (gw : Gateway) (tx : Tx) (account : Account) :
    List GwCall × Except String Tx :=
  match gw.getLatestBlock with
  | .error e => ([.getLatestBlock], .error e)
  | .ok _ =>
    match gw.getAccount account.address with
    | .error e => ([.getLatestBlock, .getAccount account.address], .error e)
    | .ok proposer =>
      if proposer.keyCount ≤ account.keyIndex then
        ([.getLatestBlock, .getAccount account.address],
          .error ("failed to retrieve proposer key with index " ++ toString account.keyIndex))
      else
        ([.getLatestBlock, .getAccount account.address], .ok tx)

/-- The import-resolution head of `Accounts.AddContract`: when the program
has imports, fetch the network's deployment contracts and aliases and run
`ImportReplacer.Replace` on it. -/
def resolveProgram (st : StateConfig) (script : Script) (network : String) :
    Except String Script :=
  if script.HasImports then
    match st.deploymentContractsByNetwork network with
    | .error e => .error e
    | .ok contracts =>
      match ImportReplacer.Replace ⟨contracts, st.aliasesForNetwork network⟩ script with
      | (_, some e) => .error e
      | (p, none) => .ok p
  else .ok script

/-- `Accounts.AddContract(account, contract, network, updateExisting)`.
Resolves imports, extracts the declared name, builds the add-contract
transaction from the resolved code, fetches the target account, short-circuits
with the distinguished no-diff error on a byte-identical existing contract,
fails on an existing contract without the update flag, switches to an update
transaction otherwise (the program wraps the script, whose code was rewritten
in place by the import replacement, so `contract.Code()` there is the resolved
code), prepares, submits, awaits the seal, and returns the transaction id
together with the `updateExisting` flag. -/
def AddContract (gw : Gateway) (st : StateConfig) (account : Account)
    (contract : Script) (network : String) (updateExisting : Bool) :
    List GwCall × GoResult (Nat × Bool) :=
  match resolveProgram st contract network with
  | .error e => ([], .error (.msg e))
  | .ok program =>
    match program.contractName with
    | none => ([], .error (.msg "unable to determine contract name"))
    | some name =>
      let tx := Tx.addContract name program.Code contract.args
      match gw.getAccount account.address with
      | .error e => ([.getAccount account.address], .error (.msg e))
      | .ok flowAccount =>
        let existing := mapLookup flowAccount.contracts name
        if existing.isSome && (program.Code == existing.getD "") then
          ([.getAccount account.address], .error .updateNoDiff)
        else if existing.isSome && !updateExisting then
          ([.getAccount account.address],
            .error (.msg ("contract " ++ name ++ " exists in account " ++ account.name)))
        else
          let tx := if existing.isSome && updateExisting then
            Tx.updateContract name program.Code else tx
          match prepareTransaction gw tx account with
          | (ptrace, .error e) =>
            (GwCall.getAccount account.address :: ptrace, .error (.msg e))
          | (ptrace, .ok tx) =>
            match gw.sendSignedTransaction tx with
            | .error e =>
              (GwCall.getAccount account.address :: ptrace ++ [.sendTx tx],
                .error (.msg ("failed to send transaction to deploy a contract: " ++ e)))
            | .ok txId =>
              match gw.getTransactionResult txId with
              | .error e =>
                (GwCall.getAccount account.address :: ptrace ++ [.sendTx tx, .getTxResult txId],
                  .error (.msg e))
              | .ok trx =>
                match trx.resultError with
                | some e =>
                  (GwCall.getAccount account.address :: ptrace ++ [.sendTx tx, .getTxResult txId],
                    .error (.msg e))
                | none =>
                  (GwCall.getAccount account.address :: ptrace ++ [.sendTx tx, .getTxResult txId],
                    .ok (txId, updateExisting))

/-- `Accounts.RemoveContract(account, contractName)`: fetch the account,
fail (naming the contracts actually present) when no contract of that name
is deployed, otherwise build, prepare, submit and await the removal
transaction. -/
def RemoveContract (gw : Gateway) (account : Account) (contractName : String) :
    List GwCall × GoResult Nat :=
  match gw.getAccount account.address with
  | .error e => ([.getAccount account.address], .error (.msg e))
  | .ok flowAcc =>
    let existingContracts := flowAcc.contracts.map (fun e => e.1)
    if !existingContracts.contains contractName then
      ([.getAccount account.address],
        .error (.msg ("can not remove a non-existing contract named \x27" ++ contractName ++
          "\x27. Account only contains the contracts: " ++ joinSep ", " existingContracts)))
    else
      match prepareTransaction gw (Tx.removeContract contractName) account with
      | (ptrace, .error e) =>
        (GwCall.getAccount account.address :: ptrace, .error (.msg e))
      | (ptrace, .ok tx) =>
        match gw.sendSignedTransaction tx with
        | .error e =>
          (GwCall.getAccount account.address :: ptrace ++ [.sendTx tx], .error (.msg e))
        | .ok txId =>
          match gw.getTransactionResult txId with
          | .error e =>
            (GwCall.getAccount account.address :: ptrace ++ [.sendTx tx, .getTxResult txId],
              .error (.msg e))
          | .ok txr =>
            match txr.resultError with
            | some e =>
              (GwCall.getAccount account.address :: ptrace ++ [.sendTx tx, .getTxResult txId],
                .error (.msg e))
            | none =>
              (GwCall.getAccount account.address :: ptrace ++ [.sendTx tx, .getTxResult txId],
                .ok txId)

/-- `flow.AccountKey.Validate`, modelled from the SDK contract the spec
relies on: a key whose weight exceeds the full-weight threshold is invalid. -/
def validateKey (k : AccountKey) : Option String :=
  if k.weight > accountKeyWeightThreshold then some "invalid key weight" else none

/-- The key-construction loop of `Accounts.Create`: the `i`-th public key
gets weight `keyWeights[i]` when present and the full-weight threshold
otherwise, and is paired with `sigAlgo[i]` and `hashAlgo[i]` — indexed
positionally with no length validation, a Go index-out-of-range panic when
either list is shorter than the key list.  Each key is validated before the
next is built. -/
def buildAccKeys (i : Nat) (pubKeys : List Nat) (keyWeights : List Int)
    (sigAlgo hashAlgo : List Nat) : GoResult (List AccountKey) :=
  match pubKeys with
  | [] => .ok []
  | pk :: rest =>
    let weight := keyWeights.getD i accountKeyWeightThreshold
    match sigAlgo[i]?, hashAlgo[i]? with
    | none, _ => .panic "runtime error: index out of range"
    | some _, none => .panic "runtime error: index out of range"
    | some sa, some ha =>
      match validateKey ⟨pk, sa, ha, weight⟩ with
      | some e => .error (.msg ("invalid account key: " ++ e))
      | none =>
        match buildAccKeys (i + 1) rest keyWeights sigAlgo hashAlgo with
        | .panic s => .panic s
        | .error e => .error e
        | .ok ks => .ok (⟨pk, sa, ha, weight⟩ :: ks)

/-- The contract-argument loop of `Accounts.Create`: each argument must be
`name:path` (split at the first colon), and the source at `path` is read
through the state collaborator. -/
def parseContractArgs (st : StateConfig) : List String → Except String (List (String × String))
  | [] => .ok []
  | c :: rest =>
    match splitFirst ':' c with
    | none => .error ("wrong format for contract. Correct format is name:path, but got: " ++ c)
    | some (cname, cpath) =>
      match st.readFile cpath with
      | .error e => .error e
      | .ok src =>
        match parseContractArgs st rest with
        | .error e => .error e
        | .ok cs => .ok ((cname, src) :: cs)

/-- `Accounts.Create(signer, pubKeys, keyWeights, sigAlgo, hashAlgo,
contractArgs)`: missing state configuration fails first; then a non-empty
weight list whose length differs from the key list fails before any gateway
call; then the account keys are built and validated, the contract arguments
parsed, and the creation transaction prepared, submitted and awaited; the
created address is read from the sealed result's events and the new account
fetched. -/
def Create (gw : Gateway) (st : Option StateConfig) (signer : Account)
    (pubKeys : List Nat) (keyWeights : List Int) (sigAlgo hashAlgo : List Nat)
    (contractArgs : List String) : List GwCall × GoResult FlowAccount :=
  match st with
  | none => ([], .error (.msg "missing configuration"))
  | some st =>
    if keyWeights.length > 0 && pubKeys.length != keyWeights.length then
      ([], .error (.msg ("number of keys and weights provided must match, number of provided keys: "
        ++ toString pubKeys.length ++ ", number of provided key weights: "
        ++ toString keyWeights.length)))
    else
      match buildAccKeys 0 pubKeys keyWeights sigAlgo hashAlgo with
      | .panic s => ([], .panic s)
      | .error e => ([], .error e)
      | .ok accKeys =>
        match parseContractArgs st contractArgs with
        | .error e => ([], .error (.msg e))
        | .ok contracts =>
          match prepareTransaction gw (Tx.createAccount accKeys contracts) signer with
          | (ptrace, .error e) => (ptrace, .error (.msg e))
          | (ptrace, .ok tx) =>
            match gw.sendSignedTransaction tx with
            | .error e =>
              (ptrace ++ [.sendTx tx],
                .error (.msg ("account creation transaction failed: " ++ e)))
            | .ok txId =>
              match gw.getTransactionResult txId with
              | .error e => (ptrace ++ [.sendTx tx, .getTxResult txId], .error (.msg e))
              | .ok result =>
                match result.resultError with
                | some e => (ptrace ++ [.sendTx tx, .getTxResult txId], .error (.msg e))
                | none =>
                  match result.createdAddresses with
                  | [] =>
                    (ptrace ++ [.sendTx tx, .getTxResult txId],
                      .error (.msg "new account address couldn\x27t be fetched"))
                  | addr :: _ =>
                    match gw.getAccount addr with
                    | .error e =>
                      (ptrace ++ [.sendTx tx, .getTxResult txId, .getAccount addr],
                        .error (.msg e))
                    | .ok acct =>
                      (ptrace ++ [.sendTx tx, .getTxResult txId, .getAccount addr], .ok acct)

/-! ## Spec-side definitions (refinement counterparts, worded from the spec) -/

/-- The fully substituted source the spec describes: every import token
rewritten to the address string the table maps its normalized location to
(in the `0x`-marked form the rewrite uses), text runs untouched. -/
def substAll (tbl : List (String × String)) (loc : String) (src : List SourceElem) :
    List SourceElem :=
  src.map (fun e =>
    match e with
    | .text s => .text s
    | .imp p => .text ("0x" ++ (mapLookup tbl (importKey loc p)).getD ""))

/-- The lookup key as the spec words it: the directory of the program's own
location joined with the relative import path, then path-cleaned. -/
def spec_importKey (programLocation imp : String) : String :=
  pathClean (pathJoin (pathDir programLocation) imp)

/-- The location-to-address table as the spec words it: first one entry per
contract (cleaned location, stringified target-account address), then one
entry per alias (cleaned location, hex address converted to the canonical
address-string form), alias entries inserted second. -/
def spec_contractsLocations (contracts : List Contract) (aliases : List (String × String)) :
    List (String × String) :=
  let base := contracts.foldl
    (fun m c => mapInsert m (pathClean c.location) (addressString c.accountAddress)) []
  aliases.foldl
    (fun m a => mapInsert m (pathClean a.1) (addressString (hexToAddress a.2))) base

/-! ## Helper lemmas about the replacement loop -/

theorem importsOf_replaceFirstImp (t : String) :
    ∀ (src : List SourceElem) (p : String) (rest : List String),
      importsOf src = p :: rest → importsOf (replaceFirstImp src p t) = rest := by
  intro src
  induction src with
  | nil => intro p rest h; simp [importsOf] at h
  | cons e tl ih =>
    intro p rest h
    cases e with
    | text s =>
      simp only [importsOf] at h
      simpa [replaceFirstImp, importsOf] using ih p rest h
    | imp q =>
      simp only [importsOf, List.cons.injEq] at h
      simp [replaceFirstImp, h.1, importsOf, h.2]

theorem substAll_of_no_imports (tbl : List (String × String)) (loc : String) :
    ∀ src : List SourceElem, importsOf src = [] → substAll tbl loc src = src := by
  intro src
  induction src with
  | nil => intro _; rfl
  | cons e tl ih =>
    intro h
    cases e with
    | text s =>
      simp only [importsOf] at h
      simp [substAll] at ih ⊢
      exact ih h
    | imp q => simp [importsOf] at h

theorem substAll_replaceFirstImp (tbl : List (String × String)) (loc : String) :
    ∀ (src : List SourceElem) (p : String) (rest : List String) (t : String),
      importsOf src = p :: rest → mapLookup tbl (importKey loc p) = some t →
      substAll tbl loc (replaceFirstImp src p ("0x" ++ t)) = substAll tbl loc src := by
  intro src
  induction src with
  | nil => intro p rest t h _; simp [importsOf] at h
  | cons e tl ih =>
    intro p rest t h hl
    cases e with
    | text s =>
      simp only [importsOf] at h
      simp only [replaceFirstImp, substAll, List.map_cons]
      have := ih p rest t h hl
      simp [substAll] at this
      simp [this]
    | imp q =>
      simp only [importsOf, List.cons.injEq] at h
      simp [replaceFirstImp, h.1, substAll, hl]

theorem replaceLoop_complete (tbl : List (String × String)) :
    ∀ (l : List String) (prog : Script),
      prog.Imports = l →
      (∀ imp ∈ l, (mapLookup tbl (importKey prog.location imp)).isSome) →
      replaceLoop tbl l prog =
        ({ prog with source := substAll tbl prog.location prog.source }, none) := by
  intro l
  induction l with
  | nil =>
    intro prog h _
    have hs : substAll tbl prog.location prog.source = prog.source :=
      substAll_of_no_imports tbl prog.location prog.source h
    simp [replaceLoop, hs]
  | cons imp rest ih =>
    intro prog h hcov
    have hhead := hcov imp (List.mem_cons_self imp rest)
    obtain ⟨t, ht⟩ := Option.isSome_iff_exists.mp hhead
    have hstep : replaceLoop tbl (imp :: rest) prog =
        replaceLoop tbl rest (prog.ReplaceImport imp t) := by
      simp [replaceLoop, ht]
    have himp2 : (prog.ReplaceImport imp t).Imports = rest :=
      importsOf_replaceFirstImp ("0x" ++ t) prog.source imp rest h
    have hloc : (prog.ReplaceImport imp t).location = prog.location := rfl
    have hcov2 : ∀ i ∈ rest,
        (mapLookup tbl (importKey (prog.ReplaceImport imp t).location i)).isSome := by
      intro i hi
      rw [hloc]
      exact hcov i (List.mem_cons_of_mem imp hi)
    have := ih (prog.ReplaceImport imp t) himp2 hcov2
    rw [hstep, this]
    have hsub : substAll tbl prog.location (prog.ReplaceImport imp t).source =
        substAll tbl prog.location prog.source :=
      substAll_replaceFirstImp tbl prog.location prog.source imp rest t h ht
    simp [Script.ReplaceImport] at hsub ⊢
    exact hsub

theorem replaceLoop_stops (tbl : List (String × String)) :
    ∀ (pre : List String) (bad : String) (rest : List String) (prog : Script),
      prog.Imports = pre ++ bad :: rest →
      (∀ imp ∈ pre, (mapLookup tbl (importKey prog.location imp)).isSome) →
      mapLookup tbl (importKey prog.location bad) = none →
      replaceLoop tbl (pre ++ bad :: rest) prog =
        (pre.foldl (fun pr imp =>
            pr.ReplaceImport imp ((mapLookup tbl (importKey prog.location imp)).getD "")) prog,
          some ("import " ++ bad ++ " could not be resolved from the configuration")) := by
  intro pre
  induction pre with
  | nil =>
    intro bad rest prog _ _ hbad
    simp [replaceLoop, hbad]
  | cons imp pre2 ih =>
    intro bad rest prog h hpre hbad
    have hhead := hpre imp (List.mem_cons_self imp pre2)
    obtain ⟨t, ht⟩ := Option.isSome_iff_exists.mp hhead
    have hstep : replaceLoop tbl ((imp :: pre2) ++ bad :: rest) prog =
        replaceLoop tbl (pre2 ++ bad :: rest) (prog.ReplaceImport imp t) := by
      simp [replaceLoop, ht]
    have himp2 : (prog.ReplaceImport imp t).Imports = pre2 ++ bad :: rest :=
      importsOf_replaceFirstImp ("0x" ++ t) prog.source imp (pre2 ++ bad :: rest) (by simpa using h)
    have hloc : (prog.ReplaceImport imp t).location = prog.location := rfl
    have hpre2 : ∀ i ∈ pre2,
        (mapLookup tbl (importKey (prog.ReplaceImport imp t).location i)).isSome := by
      intro i hi
      rw [hloc]
      exact hpre i (List.mem_cons_of_mem imp hi)
    have hbad2 : mapLookup tbl (importKey (prog.ReplaceImport imp t).location bad) = none := by
      rw [hloc]; exact hbad
    have := ih bad rest (prog.ReplaceImport imp t) himp2 hpre2 hbad2
    rw [hstep, this]
    simp [hloc, List.foldl_cons, ht]

/-! ## Map lemmas (alias entries overwrite contract entries) -/

theorem find_map_replace (k v : String) :
    ∀ m : List (String × String), m.any (fun x => x.1 == k) = true →
      (m.map (fun e => if e.1 == k then (k, v) else e)).find? (fun e => e.1 == k) =
        some (k, v) := by
  intro m
  induction m with
  | nil => intro h; simp at h
  | cons e tl ih =>
    intro h
    by_cases hek : e.1 = k
    · simp [List.find?, hek]
    · have hek2 : (e.1 == k) = false := by simp [hek]
      have htl : tl.any (fun x => x.1 == k) = true := by
        simp only [List.any_cons, hek2, Bool.false_or] at h
        exact h
      simp only [List.map_cons, hek2, Bool.false_eq_true, if_false, List.find?, hek2]
      exact ih htl

theorem find_append_new (k v : String) :
    ∀ m : List (String × String), m.any (fun x => x.1 == k) = false →
      (m ++ [(k, v)]).find? (fun e => e.1 == k) = some (k, v) := by
  intro m
  induction m with
  | nil => simp [List.find?]
  | cons e tl ih =>
    intro h
    simp only [List.any_cons, Bool.or_eq_false_iff] at h
    simp only [List.cons_append, List.find?, h.1]
    exact ih h.2

theorem mapLookup_mapInsert_self (k v : String) (m : List (String × String)) :
    mapLookup (mapInsert m k v) k = some v := by
  by_cases hany : m.any (fun x => x.1 == k) = true
  · simp only [mapInsert, hany, if_pos, mapLookup, find_map_replace k v m hany]
    rfl
  · have hf : m.any (fun x => x.1 == k) = false := Bool.eq_false_iff.mpr hany
    simp only [mapInsert, hf, Bool.false_eq_true, if_false, mapLookup,
      find_append_new k v m hf]
    rfl

theorem importsOf_substAll (tbl : List (String × String)) (loc : String) :
    ∀ src : List SourceElem, importsOf (substAll tbl loc src) = [] := by
  intro src
  induction src with
  | nil => rfl
  | cons e tl ih =>
    cases e with
    | text s => simpa [substAll, importsOf] using ih
    | imp q => simpa [substAll, importsOf] using ih

/-! ## Claim C5 -/

/-- C5: for every program `P` and import replacer whose location table has an
entry for every import of `P` under the normalization `Replace` applies,
`Replace` succeeds (no error), the resulting program has no remaining import
token, and its source is the original source with every import rewritten to
the `0x`-marked address string the table maps its normalized location to. -/
theorem replace_complete_success (r : ImportReplacer) (P : Script)
    (hcov : ∀ imp ∈ P.Imports,
      (mapLookup r.getContractsLocations (importKey P.location imp)).isSome) :
    (r.Replace P).2 = none ∧ (r.Replace P).1.Imports = [] ∧
    (r.Replace P).1.source = substAll r.getContractsLocations P.location P.source := by
  have h := replaceLoop_complete r.getContractsLocations P.Imports P rfl hcov
  unfold ImportReplacer.Replace
  rw [h]
  exact ⟨rfl, importsOf_substAll _ _ _, rfl⟩

def c5Program : Script :=
  ⟨"cdc/foo.cdc", [.text ("import "), .imp ("./Bar.cdc"), .text ("\ncontract Foo")],
    some ("Foo"), []⟩

def c5Replacer : ImportReplacer :=
  ⟨[⟨"cdc/Bar.cdc", 5⟩], []⟩

theorem replace_complete_success_witness :
    (∀ imp ∈ c5Program.Imports,
      (mapLookup c5Replacer.getContractsLocations (importKey c5Program.location imp)).isSome) ∧
    ((c5Replacer.Replace c5Program).2 = none ∧ (c5Replacer.Replace c5Program).1.Imports = [] ∧
      (c5Replacer.Replace c5Program).1.source =
        substAll c5Replacer.getContractsLocations c5Program.location c5Program.source) :=
  ⟨by decide, replace_complete_success c5Replacer c5Program (by decide)⟩

/-! ## Claim C1 -/

def c1Program : Script :=
  ⟨"proj/main.cdc", [.imp ("./A.cdc"), .text ("\n"), .imp ("./B.cdc")], some ("Main"), []⟩

def c1Replacer : ImportReplacer :=
  ⟨[⟨"proj/A.cdc", 1⟩], []⟩

/-- C1, counterexample: on a program importing `./A.cdc` then `./B.cdc` with
only `./A.cdc` in the table, `Replace` returns the unresolved-import error
naming `./B.cdc`, but the program state when the error is returned already
has its first import rewritten, so substitution is partial — refuting the
claimed "original program unaffected, no import rewritten" behaviour. -/
theorem replace_unresolved_counterexample :
    (c1Replacer.Replace c1Program).2 =
      some ("import ./B.cdc could not be resolved from the configuration") ∧
    (c1Replacer.Replace c1Program).1.source =
      [.text ("0x0000000000000001"), .text ("\n"), .imp ("./B.cdc")] := by
  decide

/-- C1, amended: if an import of `P` has no table entry, `Replace` returns an
unresolved-import error naming the first such import; substitution however is
not atomic: every import listed before the unresolved one has already been
rewritten in the program (which the Go code mutates in place) when the error
is returned. -/
theorem replace_unresolved_error_mutates (r : ImportReplacer) (P : Script)
    (pre : List String) (bad : String) (rest : List String)
    (himp : P.Imports = pre ++ bad :: rest)
    (hpre : ∀ imp ∈ pre,
      (mapLookup r.getContractsLocations (importKey P.location imp)).isSome)
    (hbad : mapLookup r.getContractsLocations (importKey P.location bad) = none) :
    r.Replace P =
      (pre.foldl (fun pr imp =>
          pr.ReplaceImport imp
            ((mapLookup r.getContractsLocations (importKey P.location imp)).getD "")) P,
        some ("import " ++ bad ++ " could not be resolved from the configuration")) := by
  unfold ImportReplacer.Replace
  rw [himp]
  exact replaceLoop_stops r.getContractsLocations pre bad rest P himp hpre hbad

theorem replace_unresolved_error_mutates_witness :
    (c1Program.Imports = ["./A.cdc"] ++ "./B.cdc" :: [] ∧
      (∀ imp ∈ ["./A.cdc"],
        (mapLookup c1Replacer.getContractsLocations (importKey c1Program.location imp)).isSome) ∧
      mapLookup c1Replacer.getContractsLocations (importKey c1Program.location ("./B.cdc")) = none) ∧
    c1Replacer.Replace c1Program =
      ((["./A.cdc"].foldl (fun pr imp =>
          pr.ReplaceImport imp
            ((mapLookup c1Replacer.getContractsLocations (importKey c1Program.location imp)).getD ""))
          c1Program),
        some ("import ./B.cdc could not be resolved from the configuration")) :=
  ⟨⟨by decide, by decide, by decide⟩,
    replace_unresolved_error_mutates c1Replacer c1Program ["./A.cdc"] ("./B.cdc") []
      (by decide) (by decide) (by decide)⟩

/-! ## Claim C6 -/

/-- C6: the lookup key `Replace` uses for an import is the directory of the
program's own location joined with the relative import path and then
path-cleaned; the table it consults inserts one entry per contract (cleaned
location, stringified account address) and then one entry per alias (cleaned
location, hex address converted to the canonical address-string form); and
because alias entries are inserted second, an alias entry overwrites any
contract entry with the same key. -/
theorem replace_key_and_table (loc imp : String) (r : ImportReplacer)
    (cs : List Contract) (al : List (String × String)) (s t : String) :
    importKey loc imp = spec_importKey loc imp ∧
    r.getContractsLocations = spec_contractsLocations r.contracts r.aliases ∧
    mapLookup (ImportReplacer.getContractsLocations ⟨cs, al ++ [(s, t)]⟩) (pathClean s) =
      some (addressString (hexToAddress t)) := by
  refine ⟨rfl, rfl, ?_⟩
  unfold ImportReplacer.getContractsLocations
  rw [List.foldl_append]
  simp only [List.foldl_cons, List.foldl_nil]
  exact mapLookup_mapInsert_self _ _ _

theorem replace_key_and_table_witness :
    importKey ("cdc/foo.cdc") ("./Bar.cdc") = spec_importKey ("cdc/foo.cdc") ("./Bar.cdc") ∧
    mapLookup (ImportReplacer.getContractsLocations ⟨[⟨"X.cdc", 2⟩], [("X.cdc", "0x03")]⟩)
        (pathClean ("X.cdc")) =
      some (addressString (hexToAddress ("0x03"))) :=
  ⟨(replace_key_and_table ("cdc/foo.cdc") ("./Bar.cdc") ⟨[], []⟩ [] [] ("") ("")).1,
    (replace_key_and_table ("") ("") ⟨[], []⟩ [⟨"X.cdc", 2⟩] [] ("X.cdc") ("0x03")).2.2⟩

/-! ## Concrete fixtures shared by the service-layer witnesses -/

/-- An on-chain account holding an older `Hello` contract. -/
def wOldAccount : FlowAccount := ⟨[("Hello", "old code")], 1⟩

/-- A gateway whose account 7 holds the old `Hello` contract; every call
succeeds, transactions get id 42, results are sealed without error. -/
def wGateway : Gateway :=
  ⟨fun a => if a == 7 then .ok wOldAccount else .error ("unknown account"),
    .ok (), fun _ => .ok 42, fun _ => .ok ⟨none, [9]⟩⟩

/-- A gateway whose account 7 holds no contracts at all. -/
def wEmptyGateway : Gateway :=
  ⟨fun a => if a == 7 then .ok ⟨[], 1⟩ else .error ("unknown account"),
    .ok (), fun _ => .ok 42, fun _ => .ok ⟨none, [9]⟩⟩

/-- A state/config collaborator with no deployment contracts or aliases. -/
def wState : StateConfig :=
  ⟨fun _ => .ok [], fun _ => [], fun _ => .ok ("pub contract C")⟩

/-- The signing account at address 7, key index 0. -/
def wAccount : Account := ⟨"alice", 7, 0⟩

/-- A no-import `Hello` script whose code differs from the deployed one. -/
def wScript : Script := ⟨"hello.cdc", [.text ("contract Hello v2")], some ("Hello"), []⟩

/-! ## Claim C4 -/

/-- C4: when the target account already holds a contract under the extracted
name whose stored code is byte-identical to the resolved program code,
`AddContract` stops with the distinguished no-diff error after the single
account fetch — whatever `updateExisting` is — and never submits a
transaction. -/
theorem addContract_noDiff_short_circuit (gw : Gateway) (st : StateConfig)
    (account : Account) (contract : Script) (network : String) (updateExisting : Bool)
    (program : Script) (name : String) (flowAccount : FlowAccount)
    (hres : resolveProgram st contract network = Except.ok program)
    (hname : program.contractName = some name)
    (hacct : gw.getAccount account.address = Except.ok flowAccount)
    (hex : mapLookup flowAccount.contracts name = some program.Code) :
    AddContract gw st account contract network updateExisting =
      ([.getAccount account.address], .error .updateNoDiff) ∧
    ∀ t : Tx, GwCall.sendTx t ∉ (AddContract gw st account contract network updateExisting).1 := by
  have hmain : AddContract gw st account contract network updateExisting =
      ([.getAccount account.address], .error .updateNoDiff) := by
    simp [AddContract, hres, hname, hacct, hex]
  refine ⟨hmain, ?_⟩
  intro t
  rw [hmain]
  simp

/-- The gateway for the C4 witness: account 7 already holds exactly the code
the witness script resolves to. -/
def c4Gateway : Gateway :=
  ⟨fun a => if a == 7 then .ok ⟨[("Hello", "contract Hello v2")], 1⟩
    else .error ("unknown account"),
    .ok (), fun _ => .ok 42, fun _ => .ok ⟨none, [9]⟩⟩

theorem addContract_noDiff_short_circuit_witness :
    (AddContract c4Gateway wState wAccount wScript ("emulator") true =
      ([.getAccount 7], .error .updateNoDiff) ∧
    ∀ t : Tx, GwCall.sendTx t ∉ (AddContract c4Gateway wState wAccount wScript ("emulator") true).1) :=
  addContract_noDiff_short_circuit c4Gateway wState wAccount wScript ("emulator") true wScript
    ("Hello") ⟨[("Hello", "contract Hello v2")], 1⟩ rfl rfl rfl rfl

/-! ## Claim C2 -/

/-- C2: when a differing contract of the extracted name exists and
`updateExisting` is true, `AddContract` runs an update transaction and
succeeds, and the submitted update transaction carries exactly the resolved
program's code. -/
theorem addContract_update_success (gw : Gateway) (st : StateConfig) (account : Account)
    (contract : Script) (network : String) (program : Script) (name : String)
    (flowAccount : FlowAccount) (existingCode : String) (txId : Nat) (trxRes : TxResult)
    (hres : resolveProgram st contract network = Except.ok program)
    (hname : program.contractName = some name)
    (hacct : gw.getAccount account.address = Except.ok flowAccount)
    (hex : mapLookup flowAccount.contracts name = some existingCode)
    (hdiff : program.Code ≠ existingCode)
    (hblk : gw.getLatestBlock = Except.ok ())
    (hkey : account.keyIndex < flowAccount.keyCount)
    (hsend : gw.sendSignedTransaction (Tx.updateContract name program.Code) = Except.ok txId)
    (hseal : gw.getTransactionResult txId = Except.ok trxRes)
    (hnoerr : trxRes.resultError = none) :
    AddContract gw st account contract network true =
      ([.getAccount account.address, .getLatestBlock, .getAccount account.address,
        .sendTx (Tx.updateContract name program.Code), .getTxResult txId],
        .ok (txId, true)) := by
  have hb : (program.Code == existingCode) = false := by simp [hdiff]
  have hk : ¬ flowAccount.keyCount ≤ account.keyIndex := Nat.not_le.mpr hkey
  simp [AddContract, prepareTransaction, hres, hname, hacct, hex, hb, hblk, hk, hsend,
    hseal, hnoerr]

theorem addContract_update_success_witness :
    AddContract wGateway wState wAccount wScript ("emulator") true =
      ([.getAccount 7, .getLatestBlock, .getAccount 7,
        .sendTx (Tx.updateContract ("Hello") wScript.Code), .getTxResult 42],
        .ok (42, true)) :=
  addContract_update_success wGateway wState wAccount wScript ("emulator") wScript ("Hello")
    wOldAccount ("old code") 42 ⟨none, [9]⟩ rfl rfl rfl rfl (by decide)
    rfl (by decide) rfl rfl rfl

/-! ## Claim C10 -/

/-- C10: `AddContract` with `updateExisting = true` on an account holding no
contract of the extracted name is not an error: no short-circuit and no
already-exists failure fires, and a creation (add-contract) transaction is
built, submitted and sealed. -/
theorem addContract_updateFlag_fresh_creates (gw : Gateway) (st : StateConfig)
    (account : Account) (contract : Script) (network : String) (program : Script)
    (name : String) (flowAccount : FlowAccount) (txId : Nat) (trxRes : TxResult)
    (hres : resolveProgram st contract network = Except.ok program)
    (hname : program.contractName = some name)
    (hacct : gw.getAccount account.address = Except.ok flowAccount)
    (hnone : mapLookup flowAccount.contracts name = none)
    (hblk : gw.getLatestBlock = Except.ok ())
    (hkey : account.keyIndex < flowAccount.keyCount)
    (hsend : gw.sendSignedTransaction (Tx.addContract name program.Code contract.args) =
      Except.ok txId)
    (hseal : gw.getTransactionResult txId = Except.ok trxRes)
    (hnoerr : trxRes.resultError = none) :
    AddContract gw st account contract network true =
      ([.getAccount account.address, .getLatestBlock, .getAccount account.address,
        .sendTx (Tx.addContract name program.Code contract.args), .getTxResult txId],
        .ok (txId, true)) := by
  have hk : ¬ flowAccount.keyCount ≤ account.keyIndex := Nat.not_le.mpr hkey
  simp [AddContract, prepareTransaction, hres, hname, hacct, hnone, hblk, hk, hsend,
    hseal, hnoerr]

theorem addContract_updateFlag_fresh_creates_witness :
    AddContract wEmptyGateway wState wAccount wScript ("emulator") true =
      ([.getAccount 7, .getLatestBlock, .getAccount 7,
        .sendTx (Tx.addContract ("Hello") wScript.Code wScript.args), .getTxResult 42],
        .ok (42, true)) :=
  addContract_updateFlag_fresh_creates wEmptyGateway wState wAccount wScript ("emulator")
    wScript ("Hello") ⟨[], 1⟩ 42 ⟨none, [9]⟩ rfl rfl rfl rfl rfl
    (by decide) rfl rfl rfl

/-! ## Claim C3 -/

/-- C3, counterexample: with `updateExisting = true` on an account that holds
no `Hello` contract, the submitted transaction is a creation (add-contract)
transaction, yet the boolean returned with the transaction id is `true` —
refuting "false exactly when a creation transaction was run". -/
theorem addContract_returned_bool_counterexample :
    mapLookup (⟨[], 1⟩ : FlowAccount).contracts ("Hello") = none ∧
    AddContract wEmptyGateway wState wAccount wScript ("emulator") true =
      ([.getAccount 7, .getLatestBlock, .getAccount 7,
        .sendTx (Tx.addContract ("Hello") wScript.Code wScript.args), .getTxResult 42],
        .ok (42, true)) := by
  decide

/-- C3, amended: the boolean a successful `AddContract` returns is the
caller's `updateExisting` flag, not a report of which transaction ran: it is
`true` whenever update mode was requested, even when no contract existed and
a creation transaction was submitted. -/
theorem addContract_ok_bool_is_flag (gw : Gateway) (st : StateConfig) (account : Account)
    (contract : Script) (network : String) (updateExisting : Bool)
    (trace : List GwCall) (txId : Nat) (b : Bool)
    (h : AddContract gw st account contract network updateExisting =
      (trace, .ok (txId, b))) :
    b = updateExisting := by
  unfold AddContract at h
  repeat' split at h
  all_goals try simp_all
  all_goals repeat' split at h
  all_goals simp_all

theorem addContract_ok_bool_is_flag_witness :
    AddContract wEmptyGateway wState wAccount wScript ("emulator") true =
      ([.getAccount 7, .getLatestBlock, .getAccount 7,
        .sendTx (Tx.addContract ("Hello") wScript.Code wScript.args), .getTxResult 42],
        .ok (42, true)) ∧ true = true :=
  ⟨by decide,
    addContract_ok_bool_is_flag wEmptyGateway wState wAccount wScript ("emulator") true
      [.getAccount 7, .getLatestBlock, .getAccount 7,
        .sendTx (Tx.addContract ("Hello") wScript.Code wScript.args), .getTxResult 42]
      42 true (by decide)⟩

/-! ## Claim C8 -/

/-- C8: `RemoveContract` for a name the freshly fetched account does not
hold fails with an error that lists the account's actual contract names, and
its trace holds the single account fetch — no transaction is built or
submitted. -/
theorem removeContract_missing_fails (gw : Gateway) (account : Account)
    (contractName : String) (flowAcc : FlowAccount)
    (hacct : gw.getAccount account.address = Except.ok flowAcc)
    (hmiss : (flowAcc.contracts.map (fun e => e.1)).contains contractName = false) :
    RemoveContract gw account contractName =
      ([.getAccount account.address],
        .error (.msg ("can not remove a non-existing contract named \x27" ++ contractName ++
          "\x27. Account only contains the contracts: " ++
          joinSep ", " (flowAcc.contracts.map (fun e => e.1))))) ∧
    ∀ t : Tx, GwCall.sendTx t ∉ (RemoveContract gw account contractName).1 := by
  have hmain : RemoveContract gw account contractName =
      ([.getAccount account.address],
        .error (.msg ("can not remove a non-existing contract named \x27" ++ contractName ++
          "\x27. Account only contains the contracts: " ++
          joinSep ", " (flowAcc.contracts.map (fun e => e.1))))) := by
    simp only [RemoveContract, hacct, hmiss, Bool.not_false, if_true]
  refine ⟨hmain, ?_⟩
  intro t
  rw [hmain]
  simp

theorem removeContract_missing_fails_witness :
    RemoveContract wGateway wAccount ("Other") =
      ([.getAccount 7],
        .error (.msg ("can not remove a non-existing contract named \x27Other\x27. " ++
          "Account only contains the contracts: " ++
          joinSep ", " (wOldAccount.contracts.map (fun e => e.1))))) ∧
    ∀ t : Tx, GwCall.sendTx t ∉ (RemoveContract wGateway wAccount ("Other")).1 :=
  removeContract_missing_fails wGateway wAccount ("Other") wOldAccount rfl (by decide)

/-! ## Claim C7 -/

/-- C7: `Create` with a non-empty weight list whose length differs from the
key list fails with the count-mismatch error before any gateway call (its
trace is empty); and with no explicit weights, every account key the
key-construction loop builds carries the full-weight threshold. -/
theorem create_weight_validation :
    (∀ (gw : Gateway) (st : StateConfig) (signer : Account) (pubKeys : List Nat)
        (keyWeights : List Int) (sigAlgo hashAlgo : List Nat) (contractArgs : List String),
      keyWeights ≠ [] → pubKeys.length ≠ keyWeights.length →
      Create gw (some st) signer pubKeys keyWeights sigAlgo hashAlgo contractArgs =
        ([], .error (.msg ("number of keys and weights provided must match, number of provided keys: "
          ++ toString pubKeys.length ++ ", number of provided key weights: "
          ++ toString keyWeights.length)))) ∧
    (∀ (i : Nat) (pubKeys : List Nat) (sigAlgo hashAlgo : List Nat) (keys : List AccountKey),
      buildAccKeys i pubKeys [] sigAlgo hashAlgo = .ok keys →
      ∀ k ∈ keys, k.weight = accountKeyWeightThreshold) := by
  constructor
  · intro gw st signer pubKeys keyWeights sigAlgo hashAlgo contractArgs hne hlen
    have hpos : 0 < keyWeights.length := List.length_pos.mpr hne
    have h1 : (keyWeights.length > 0 && pubKeys.length != keyWeights.length) = true := by
      simp [hpos, hlen]
    simp [Create, h1]
  · intro i pubKeys
    induction pubKeys generalizing i with
    | nil =>
      intro sigAlgo hashAlgo keys h
      simp only [buildAccKeys] at h
      cases h
      intro k hk
      simp at hk
    | cons pk rest ih =>
      intro sigAlgo hashAlgo keys h
      simp only [buildAccKeys] at h
      cases hsa : sigAlgo[i]? with
      | none => simp [hsa] at h
      | some sa =>
        cases hha : hashAlgo[i]? with
        | none => simp [hsa, hha] at h
        | some ha =>
          simp only [hsa, hha] at h
          have hv : validateKey
              ⟨pk, sa, ha, ([] : List Int).getD i accountKeyWeightThreshold⟩ = none := by
            simp [validateKey, List.getD]
          rw [hv] at h
          cases hrec : buildAccKeys (i + 1) rest [] sigAlgo hashAlgo with
          | panic s => simp [hrec] at h
          | error e => simp [hrec] at h
          | ok ks =>
            simp only [hrec] at h
            injection h with h2
            subst h2
            intro k hk
            rcases List.mem_cons.mp hk with hk1 | hk2
            · rw [hk1]; rfl
            · exact ih (i + 1) sigAlgo hashAlgo ks hrec k hk2

theorem create_weight_validation_witness :
    Create wGateway (some wState) wAccount [1, 2] [500] [0, 0] [0, 0] [] =
      ([], .error (.msg ("number of keys and weights provided must match, number of provided keys: "
        ++ toString ([1, 2] : List Nat).length ++ ", number of provided key weights: "
        ++ toString ([(500 : Int)] : List Int).length))) ∧
    ∀ k ∈ [(⟨1, 0, 0, accountKeyWeightThreshold⟩ : AccountKey)],
      k.weight = accountKeyWeightThreshold :=
  ⟨create_weight_validation.1 wGateway wState wAccount [1, 2] [500] [0, 0] [0, 0] []
      (by decide) (by decide),
    create_weight_validation.2 0 [1] [0] [0] [⟨1, 0, 0, accountKeyWeightThreshold⟩] rfl⟩

/-! ## Claim C9 -/

theorem buildAccKeys_no_panic :
    ∀ (pubKeys : List Nat) (i : Nat) (keyWeights : List Int) (sigAlgo hashAlgo : List Nat)
      (s : String),
      i + pubKeys.length ≤ sigAlgo.length → i + pubKeys.length ≤ hashAlgo.length →
      buildAccKeys i pubKeys keyWeights sigAlgo hashAlgo ≠ .panic s := by
  intro pubKeys
  induction pubKeys with
  | nil => intro i kw sa ha s _ _; simp [buildAccKeys]
  | cons pk rest ih =>
    intro i kw sa ha s h1 h2
    have hsa : i < sa.length := by simp at h1; omega
    have hha : i < ha.length := by simp at h2; omega
    intro h
    simp only [buildAccKeys, List.getElem?_eq_getElem hsa, List.getElem?_eq_getElem hha] at h
    cases hv : validateKey ⟨pk, sa[i], ha[i], kw.getD i accountKeyWeightThreshold⟩ with
    | some e => rw [hv] at h; cases h
    | none =>
      rw [hv] at h
      cases hrec : buildAccKeys (i + 1) rest kw sa ha with
      | panic s2 =>
        refine ih (i + 1) kw sa ha s2 (by simp at h1 ⊢; omega) (by simp at h2 ⊢; omega) hrec
      | error e => rw [hrec] at h; cases h
      | ok ks => rw [hrec] at h; cases h

theorem create_panic_from_buildKeys (gw : Gateway) (st : Option StateConfig)
    (signer : Account) (pubKeys : List Nat) (keyWeights : List Int)
    (sigAlgo hashAlgo : List Nat) (contractArgs : List String) (s : String)
    (h : (Create gw st signer pubKeys keyWeights sigAlgo hashAlgo contractArgs).2 =
      GoResult.panic s) :
    buildAccKeys 0 pubKeys keyWeights sigAlgo hashAlgo = .panic s := by
  unfold Create at h
  repeat' split at h
  all_goals simp_all

/-- C9: the key-construction loop of `Create` reads the signature- and
hash-algorithm lists positionally with no length check: when each list has at
least as many entries as there are public keys, `Create` never panics, and on
a concrete input with fewer algorithm entries than keys it panics with an
index-out-of-range runtime error instead of returning an error value. -/
theorem create_positional_indexing :
    (∀ (gw : Gateway) (st : Option StateConfig) (signer : Account) (pubKeys : List Nat)
        (keyWeights : List Int) (sigAlgo hashAlgo : List Nat) (contractArgs : List String)
        (s : String),
      pubKeys.length ≤ sigAlgo.length → pubKeys.length ≤ hashAlgo.length →
      (Create gw st signer pubKeys keyWeights sigAlgo hashAlgo contractArgs).2 ≠
        GoResult.panic s) ∧
    Create wEmptyGateway (some wState) wAccount [1] [] [] [] [] =
      ([], .panic ("runtime error: index out of range")) := by
  constructor
  · intro gw st signer pubKeys keyWeights sigAlgo hashAlgo contractArgs s h1 h2 heq
    exact buildAccKeys_no_panic pubKeys 0 keyWeights sigAlgo hashAlgo s (by omega) (by omega)
      (create_panic_from_buildKeys gw st signer pubKeys keyWeights sigAlgo hashAlgo
        contractArgs s heq)
  · decide

theorem create_positional_indexing_witness :
    (Create wGateway (some wState) wAccount [1] [] [0] [0] []).2 ≠
      GoResult.panic ("runtime error: index out of range") :=
  create_positional_indexing.1 wGateway (some wState) wAccount [1] [] [0] [0] []
    ("runtime error: index out of range") (by decide) (by decide)

end FlowSpec
